import Mathlib

/-!
Verification of the measurement control loop of quantify-core.

The definitions below are a shallow embedding of
src/quantify/measurement/control.py (class MeasurementControl and
tile_setpoints_grid) and of the validation helpers in
src/quantify/measurement/measurement_control.py (is_setable, is_getable).

Modelling conventions:
- rational numbers stand for the Python floats flowing through the loop;
- a dataset cell is an Option value, none standing for NaN;
- real time is abstracted: the elapsed-time test inside the update
  checkpoint is an oracle argument giving the outcome of each test;
- observable actions of a run (dataset writes to disk, set and get calls,
  prepare and finish calls, progress prints) are recorded in a trace.
-/

namespace Quantify

/-- Observable events emitted during MeasurementControl.run, in program
order. setCall and getCall carry the settable index (and value set) and
the gettable index. -/
inductive Event where
  | initDataset
  | persist
  | snapshotWrite
  | plotmonInit
  | plotmonUpdate
  | progressPrint
  | prepareSettableCall (i : Nat)
  | prepareGettableCall
  | setCall (i : Nat) (v : ℚ)
  | getCall (j : Nat)
  | finishCall (i : Nat)
  deriving DecidableEq, Repr

/-- A settable parameter as the controller sees it: its batched flag and
whether the optional prepare and finish hooks exist on the object. -/
structure SettablePar where
  batched : Bool
  has_prepare : Bool
  has_finish : Bool
  deriving DecidableEq, Repr

/-- A gettable parameter. iter_get gives the scalar returned by get() in
iterative mode as a function of the values last set on the settables;
batch_returns lists the successive matrices returned by get() in batched
mode (a 1-D numpy return is already reshaped to a single-row matrix, as
control.py lines 198-199 do). -/
structure GettablePar where
  batched : Bool
  has_prepare : Bool
  has_finish : Bool
  iter_get : List ℚ → ℚ
  batch_returns : List (List (List ℚ))

/-- The _plot_info dict: the three keys control.py ever stores. A field is
none when the key is absent from the dict. -/
structure PlotInfo where
  grid2d : Option Bool
  xlen : Option Nat
  ylen : Option Nat
  deriving DecidableEq, Repr

/-- The dict assigned at the end of run (control.py line 221):
self._plot_info = a dict holding only 2D-grid mapped to False. -/
def PlotInfo.afterRun : PlotInfo := ⟨some false, none, none⟩

/-- The mutable state of a MeasurementControl instance that the claims
mention: configured settables, setpoints, gettables, the soft_avg
parameter, plot info, the bookkeeping counters, and whether a live plot
monitor is configured (instr_plotmon non-empty). -/
structure MC where
  settable_pars : List SettablePar
  setpoints : List (List ℚ)
  gettable_pars : List GettablePar
  soft_avg : Nat
  plot_info : PlotInfo
  nr_acquired_values : Nat
  soft_iterations : Nat
  plotmon : Bool

/-- A dataset: one coordinate array per settable and one data array per
gettable; none is NaN. -/
structure Dataset where
  xs : List (List ℚ)
  ys : List (List (Option ℚ))
  deriving DecidableEq, Repr

/-- Modelled from the spec: initialize_dataset lives in
quantify.data.handling, which is not under src/. Per spec section 4.4 it
produces one coordinate array x per settable holding the setpoint
components and one NaN-filled data array y per gettable, each of the full
setpoint-count length. -/
def initialize_dataset (sps : List SettablePar) (setpoints : List (List ℚ))
    (gps : List GettablePar) : Dataset :=
  { xs := (List.range sps.length).map (fun i => setpoints.map (fun row => row.getD i 0))
  , ys := gps.map (fun _ => setpoints.map (fun _ => (none : Option ℚ))) }

/-- Modelled from the spec: is_internally_controlled lives in
quantify.measurement.types, which is not under src/. Per the spec an
object is internally controlled (MC drives the iteration) exactly when its
batched flag is false. The argument is the batched flag of the object. -/
def is_internally_controlled (batched : Bool) : Bool := !batched

/-- Length of the longest prefix of true flags. Used to model a Python for
loop wrapped as a whole in try-except AttributeError: the first element
missing the attribute raises, the exception is swallowed, and the loop
ends there. -/
def leadingTrue : List Bool → Nat
  | [] => 0
  | b :: rest => if b then leadingTrue rest + 1 else 0

/-- MeasurementControl._prepare_settables (control.py lines 250-255): the
try block wraps the whole for loop, so prepare runs on settables up to and
excluding the first one without a prepare method. -/
def prepareSettablesEvents (sps : List SettablePar) : List Event :=
  (List.range (leadingTrue (sps.map (fun s => s.has_prepare)))).map Event.prepareSettableCall

/-- MeasurementControl._prepare_gettable (control.py lines 241-248): calls
prepare on the gettable at index 0; a missing method raises AttributeError
which is swallowed. -/
def prepareGettableEvents (gps : List GettablePar) : List Event :=
  match gps with
  | [] => []
  | g :: _ => if g.has_prepare then [Event.prepareGettableCall] else []

/-- MeasurementControl._finish (control.py lines 257-262). The iterated
expression is the Python expression gettable_pars and settable_pars, which
evaluates to the gettables list when it is empty and to the settables list
otherwise; the try block wraps the whole loop, so the first element
without a finish method ends it via a swallowed AttributeError. -/
def finishEvents (gps : List GettablePar) (sps : List SettablePar) : List Event :=
  let flags := if gps.isEmpty then ([] : List Bool) else sps.map (fun s => s.has_finish)
  (List.range (leadingTrue flags)).map Event.finishCall

/-- MeasurementControl._update (control.py lines 232-239): when the
elapsed-time test (abstracted by the oracle at the k-th update call) fires
or the acquired count equals the setpoint count, it prints progress,
persists the dataset and refreshes the plot monitor. -/
def updateEvents (oracle : Nat → Bool) (k nr numSetpoints : Nat) (plotmon : Bool) : List Event :=
  if oracle k || nr == numSetpoints then
    [Event.progressPrint, Event.persist] ++ (if plotmon then [Event.plotmonUpdate] else [])
  else []

/-- Effect on the settable values of the per-row set loop (control.py
lines 179-181): zip(settable_pars, row) updates settable i with row i for
i below the row length; settables beyond the row keep their old value. -/
def applyRow : List ℚ → List ℚ → List ℚ
  | [], _ => []
  | _ :: old, v :: row => v :: applyRow old row
  | o :: old, [] => o :: applyRow old []

/-- Write value v into data array j at cell idx. -/
def setCell (ys : List (List (Option ℚ))) (j idx : Nat) (v : ℚ) : List (List (Option ℚ)) :=
  ys.set j ((ys.getD j []).set idx (some v))

/-- The per-row gettable loop of iterative mode (control.py lines
183-185): call get on each gettable in order (enumerate supplies the index
j) and store the scalar at the current row index. Returns the updated
data arrays and the get events. -/
def doGetsFrom (lastSet : List ℚ) (idx : Nat) :
    Nat → List GettablePar → List (List (Option ℚ)) → List (List (Option ℚ)) × List Event
  | _, [], ys => (ys, [])
  | j, g :: rest, ys =>
    let r := doGetsFrom lastSet idx (j + 1) rest (setCell ys j idx (g.iter_get lastSet))
    (r.1, Event.getCall j :: r.2)

/-- np.pad of a returned row (control.py line 206): setpoint_idx zeros in
front, zeros up to the full length behind. In numpy a row longer than the
remaining space raises; subtraction here truncates at zero instead, and
the theorems only use rows that fit. -/
def padRow (setpoint_idx totalLen : Nat) (row : List ℚ) : List ℚ :=
  List.replicate setpoint_idx 0 ++ row ++ List.replicate (totalLen - row.length - setpoint_idx) 0

/-- The batched combination step (control.py lines 202-211): NaN cells of
the stored values are replaced by 0, the returned row is zero-padded to
the full length, then the vectors are summed when soft_avg is 1 and
otherwise combined as (padded + old * soft_iterations) / (1 + soft_iterations). -/
def batchCombineRow (soft_avg soft_iterations setpoint_idx : Nat)
    (old_vals : List (Option ℚ)) (row : List ℚ) : List ℚ :=
  let old0 : List ℚ := old_vals.map (fun o => o.getD 0)
  let padded_row := padRow setpoint_idx old_vals.length row
  if soft_avg = 1 then
    List.zipWith (fun o p => o + p) old0 padded_row
  else
    List.zipWith (fun p o => (p + o * (soft_iterations : ℚ)) / (1 + (soft_iterations : ℚ)))
      padded_row old0

/-- The combination rule in the words of the claim: with soft-average
count 1 the padded row is added to the existing values (NaN as 0); with a
larger count the new value is (padded_row + old * prior_iterations) /
(prior_iterations + 1). -/
def specBatchCombine (soft_avg prior_iterations : Nat)
    (padded_row old : List ℚ) : List ℚ :=
  if soft_avg = 1 then
    List.zipWith (fun p o => p + o) padded_row old
  else
    List.zipWith (fun p o => (p + o * (prior_iterations : ℚ)) / ((prior_iterations : ℚ) + 1))
      padded_row old

/-- The per-row combination loop of one batched iteration (control.py
lines 201-212): enumerate over the rows of the returned matrix and store
each combined row into the matching data array. -/
def combineRowsFrom (soft_avg soft_iter setpoint_idx : Nat) :
    Nat → List (List ℚ) → List (List (Option ℚ)) → List (List (Option ℚ))
  | _, [], ys => ys
  | i, row :: rest, ys =>
    combineRowsFrom soft_avg soft_iter setpoint_idx (i + 1) rest
      (ys.set i ((batchCombineRow soft_avg soft_iter setpoint_idx (ys.getD i []) row).map some))

/-- Static context of one run: the configured parameters together with the
elapsed-time oracle. -/
structure Ctx where
  sps : List SettablePar
  gps : List GettablePar
  setpoints : List (List ℚ)
  soft_avg : Nat
  plotmon : Bool
  oracle : Nat → Bool

/-- Loop state of the iterative branch. -/
structure IterAcc where
  ys : List (List (Option ℚ))
  lastSet : List ℚ
  nr : Nat
  updIdx : Nat
  trace : List Event

/-- The iterative (soft) acquisition loop (control.py lines 177-187): for
each setpoint row, set every settable to its component, get every
gettable, store the scalar at the row index, bump the acquired count by
one, then run the update checkpoint. -/
def iterLoop (ctx : Ctx) : List (List ℚ) → Nat → IterAcc → IterAcc
  | [], _, acc => acc
  | row :: rest, idx, acc =>
    let setEvs := (List.range (min ctx.sps.length row.length)).map
        (fun i => Event.setCall i (row.getD i 0))
    let lastSet2 := applyRow acc.lastSet row
    let gr := doGetsFrom lastSet2 idx 0 ctx.gps acc.ys
    let nr2 := acc.nr + 1
    let updEvs := updateEvents ctx.oracle acc.updIdx nr2 ctx.setpoints.length ctx.plotmon
    iterLoop ctx rest (idx + 1)
      { ys := gr.1, lastSet := lastSet2, nr := nr2, updIdx := acc.updIdx + 1,
        trace := acc.trace ++ setEvs ++ gr.2 ++ updEvs }

/-- Loop state of the batched branch. softIters mirrors _soft_iterations,
which _curr_setpoint_idx recomputes at every iteration. -/
structure BatchAcc where
  ys : List (List (Option ℚ))
  lastSet : List ℚ
  nr : Nat
  softIters : Nat
  updIdx : Nat
  trace : List Event

/-- One iteration of the batched (hard) loop body (control.py lines
190-214): _curr_setpoint_idx gives acquired mod N and acquired div N, each
settable is set to its scalar setpoint at that index, the gettable is
prepared with the remaining setpoints and queried, each returned row is
combined into the matching data array, the acquired count grows by the
number of returned columns, and the update checkpoint runs. -/
def batchStep (ctx : Ctx) (acc : BatchAcc) (nd : List (List ℚ)) : BatchAcc :=
  let numSetpoints := ctx.setpoints.length
  let setpoint_idx := acc.nr % numSetpoints
  let soft_iter := acc.nr / numSetpoints
  let row := ctx.setpoints.getD setpoint_idx []
  let setEvs := (List.range ctx.sps.length).map (fun i => Event.setCall i (row.getD i 0))
  let lastSet2 := applyRow acc.lastSet row
  let prepEvs := prepareGettableEvents ctx.gps
  let ys2 := combineRowsFrom ctx.soft_avg soft_iter setpoint_idx 0 nd acc.ys
  let nr2 := acc.nr + (nd.headD []).length
  let updEvs := updateEvents ctx.oracle acc.updIdx nr2 numSetpoints ctx.plotmon
  { ys := ys2, lastSet := lastSet2, nr := nr2, softIters := soft_iter,
    updIdx := acc.updIdx + 1,
    trace := acc.trace ++ setEvs ++ prepEvs ++ [Event.getCall 0] ++ updEvs }

/-- The batched while loop (control.py line 189): run while the acquired
count is below setpoint count times soft_avg, consuming one gettable
return per iteration. The boolean reports whether the loop condition
became false (true) or the modelled supply of returns ran out first. -/
def batchLoop (ctx : Ctx) : List (List (List ℚ)) → BatchAcc → BatchAcc × Bool
  | [], acc => (acc, decide (ctx.setpoints.length * ctx.soft_avg ≤ acc.nr))
  | nd :: rest, acc =>
    if ctx.setpoints.length * ctx.soft_avg ≤ acc.nr then (acc, true)
    else batchLoop ctx rest (batchStep ctx acc nd)

/-- Outcome of a run: the control-mismatch exception, an index error on an
empty settables or gettables list, a stalled batched loop (the modelled
return supply ran out), or normal completion with the returned dataset and
the final instance state. -/
inductive RunOutcome where
  | mismatch
  | indexError
  | stalled
  | done (ds : Dataset) (final : MC)

/-- True exactly on the mismatch outcome. -/
def RunOutcome.isMismatch : RunOutcome → Bool
  | .mismatch => true
  | _ => false

/-- True exactly on normal completion. -/
def RunOutcome.isDone : RunOutcome → Bool
  | .done _ _ => true
  | _ => false

/-- The final acquired-values counter of a completed run. -/
def RunOutcome.acquired : RunOutcome → Option Nat
  | .done _ m => some m.nr_acquired_values
  | _ => none

/-- Result of a run: its event trace and its outcome. -/
structure RunResult where
  trace : List Event
  outcome : RunOutcome

/-- MeasurementControl.run (control.py lines 126-225). Counters are reset,
the empty dataset is initialized and persisted and the snapshot written,
the plot monitor (when configured) is initialized, then the mode is
selected from the batched flags of the first settable and the first
gettable: both internally controlled gives the iterative loop, a
non-internally-controlled gettable gives the batched loop, and the
remaining case raises the control-mismatch exception. After either loop
the dataset is persisted once more, _finish runs, plot info is reset and
soft_avg is set back to 1. initVals carries the unobserved physical values
of the settables before the first set call. -/
def run (mc : MC) (initVals : List ℚ) (oracle : Nat → Bool) : RunResult :=
  let ds0 := initialize_dataset mc.settable_pars mc.setpoints mc.gettable_pars
  let initEvs := [Event.initDataset, Event.persist, Event.snapshotWrite]
      ++ (if mc.plotmon then [Event.plotmonInit, Event.plotmonUpdate] else [])
  match mc.settable_pars, mc.gettable_pars with
  | [], _ => { trace := initEvs, outcome := RunOutcome.indexError }
  | _ :: _, [] => { trace := initEvs, outcome := RunOutcome.indexError }
  | s0 :: _, g0 :: _ =>
    let ctx : Ctx := { sps := mc.settable_pars, gps := mc.gettable_pars,
                       setpoints := mc.setpoints, soft_avg := mc.soft_avg,
                       plotmon := mc.plotmon, oracle := oracle }
    if is_internally_controlled s0.batched && is_internally_controlled g0.batched then
      let prepS := prepareSettablesEvents mc.settable_pars
      let prepG := prepareGettableEvents mc.gettable_pars
      let accF := iterLoop ctx mc.setpoints 0
        { ys := ds0.ys, lastSet := initVals, nr := 0, updIdx := 0, trace := [] }
      let finEvs := finishEvents mc.gettable_pars mc.settable_pars
      { trace := initEvs ++ prepS ++ prepG ++ accF.trace ++ [Event.persist] ++ finEvs,
        outcome := RunOutcome.done ⟨ds0.xs, accF.ys⟩
          { mc with soft_avg := 1, plot_info := PlotInfo.afterRun,
                    nr_acquired_values := accF.nr, soft_iterations := 0 } }
    else if !(is_internally_controlled g0.batched) then
      let prepS := prepareSettablesEvents mc.settable_pars
      let res := batchLoop ctx g0.batch_returns
        { ys := ds0.ys, lastSet := initVals, nr := 0, softIters := 0, updIdx := 0, trace := [] }
      if res.2 then
        let finEvs := finishEvents mc.gettable_pars mc.settable_pars
        { trace := initEvs ++ prepS ++ res.1.trace ++ [Event.persist] ++ finEvs,
          outcome := RunOutcome.done ⟨ds0.xs, res.1.ys⟩
            { mc with soft_avg := 1, plot_info := PlotInfo.afterRun,
                      nr_acquired_values := res.1.nr, soft_iterations := res.1.softIters } }
      else { trace := initEvs ++ prepS ++ res.1.trace, outcome := RunOutcome.stalled }
    else
      { trace := initEvs, outcome := RunOutcome.mismatch }

/-- The data arrays of a completed run, empty on any other outcome. -/
def runYs (r : RunResult) : List (List (Option ℚ)) :=
  match r.outcome with
  | .done ds _ => ds.ys
  | _ => []

/-- Sequential writes of iterative mode: store the gettable value of each
row at consecutive cell indices. -/
def yWriteSeq (g : List ℚ → ℚ) : List (Option ℚ) → Nat → List (List ℚ) → List (Option ℚ)
  | y, _, [] => y
  | y, idx, row :: rest => yWriteSeq g (y.set idx (some (g row))) (idx + 1) rest

/-- One pass of the column-stack loop in tile_setpoints_grid (control.py
lines 411-418): np.tile repeats the existing rows once per new value and
np.repeat pairs each block with one new value, so the result is, block by
block in the order of the new values, every existing row extended by that
value. -/
def tileStep (xn : List (List ℚ)) : List ℚ → List (List ℚ)
  | [] => []
  | v :: vs => xn.map (fun r => r ++ [v]) ++ tileStep xn vs

/-- tile_setpoints_grid (control.py lines 395-419): start from the first
coordinate array as a column and fold the remaining arrays in. -/
def tile_setpoints_grid (setpoints : List (List ℚ)) : List (List ℚ) :=
  match setpoints with
  | [] => []
  | s0 :: rest => rest.foldl tileStep (s0.map (fun v => [v]))

/-- Row r of the grid in the words of the claim: the first coordinate
varies fastest, so coordinate j cycles with period equal to the product of
the lengths of the earlier arrays. -/
def specGridRow : List (List ℚ) → Nat → List ℚ
  | [], _ => []
  | a :: rest, r => a.getD (r % a.length) 0 :: specGridRow rest (r / a.length)

/-- What print_progress (control.py lines 286-306) reports: percdone is
the fraction done times 100; the callback receives percdone itself, while
the printed message applies int() to it (truncation toward zero, which on
these nonnegative values is the floor). -/
structure ProgressReport where
  callback_arg : ℚ
  printed_pct : ℤ

/-- print_progress evaluated at an acquired count, setpoint count and
soft_avg value. -/
def print_progress (nr numSetpoints soft_avg : Nat) : ProgressReport :=
  let percdone : ℚ := (nr : ℚ) / ((numSetpoints : ℚ) * (soft_avg : ℚ)) * 100
  { callback_arg := percdone, printed_pct := ⌊percdone⌋ }

/-- An arbitrary object probed by hasattr in measurement_control.py: which
of the four relevant attributes it has. -/
structure DuckObject where
  has_set : Bool
  has_get : Bool
  has_name : Bool
  has_unit : Bool
  deriving DecidableEq, Repr

/-- is_setable (measurement_control.py lines 348-367): raises
AttributeError for a missing set, name or unit attribute, in that order,
and returns True otherwise. The error branch carries the missing
attribute. -/
def is_setable (o : DuckObject) : Except String Bool :=
  if !o.has_set then Except.error "does not have set"
  else if !o.has_name then Except.error "does not have name"
  else if !o.has_unit then Except.error "does not have unit"
  else Except.ok true

/-- is_getable (measurement_control.py lines 370-389): raises
AttributeError for a missing get, name or unit attribute, in that order,
and returns True otherwise. -/
def is_getable (o : DuckObject) : Except String Bool :=
  if !o.has_get then Except.error "does not have get"
  else if !o.has_name then Except.error "does not have name"
  else if !o.has_unit then Except.error "does not have unit"
  else Except.ok true

/-- True on the ok branch. -/
def exceptOk : Except String Bool → Bool
  | Except.ok _ => true
  | Except.error _ => false

/-- Elapsed-time oracle under which the timer clause of the update
checkpoint never fires. -/
def oracleOff : Nat → Bool := fun _ => false

/-- A batched settable without optional hooks. -/
def sBatched : SettablePar := { batched := true, has_prepare := false, has_finish := false }

/-- A plain iterative settable without optional hooks. -/
def sPlain : SettablePar := { batched := false, has_prepare := false, has_finish := false }

/-- An iterative settable that does define finish. -/
def sWithFinish : SettablePar := { batched := false, has_prepare := false, has_finish := true }

/-- An iterative gettable returning twice the value last set on the first
settable. -/
def gDouble : GettablePar :=
  { batched := false, has_prepare := false, has_finish := false,
    iter_get := fun vs => 2 * vs.headD 0, batch_returns := [] }

/-- An iterative gettable that does define finish. -/
def gWithFinish : GettablePar :=
  { batched := false, has_prepare := false, has_finish := true,
    iter_get := fun vs => vs.headD 0, batch_returns := [] }

/-- A batched gettable whose two passes both return the row 1,1,1. -/
def gOnesOnes : GettablePar :=
  { batched := true, has_prepare := false, has_finish := false,
    iter_get := fun _ => 0, batch_returns := [[[1, 1, 1]], [[1, 1, 1]]] }

/-- A batched gettable returning the row 1,1,1 and then the row 3,3,3. -/
def gOnesThrees : GettablePar :=
  { batched := true, has_prepare := false, has_finish := false,
    iter_get := fun _ => 0, batch_returns := [[[1, 1, 1]], [[3, 3, 3]]] }

/-- A batched gettable answering one full pass of fives. -/
def gFives : GettablePar :=
  { batched := true, has_prepare := false, has_finish := false,
    iter_get := fun _ => 0, batch_returns := [[[5, 5, 5]]] }

/-- Batched configuration with three setpoints, soft_avg 2 and two
identical passes of ones. -/
def mcOnesOnes : MC :=
  { settable_pars := [sBatched], setpoints := [[0], [1], [2]],
    gettable_pars := [gOnesOnes], soft_avg := 2, plot_info := ⟨none, none, none⟩,
    nr_acquired_values := 0, soft_iterations := 0, plotmon := false }

/-- Batched configuration with three setpoints, soft_avg 2, passes of
ones and then threes. -/
def mcOnesThrees : MC := { mcOnesOnes with gettable_pars := [gOnesThrees] }

/-- Iterative configuration: one plain settable over setpoints 0, 1, 2
and the doubling gettable, soft_avg 1. -/
def mcIterDouble : MC :=
  { settable_pars := [sPlain], setpoints := [[0], [1], [2]],
    gettable_pars := [gDouble], soft_avg := 1, plot_info := ⟨none, none, none⟩,
    nr_acquired_values := 0, soft_iterations := 0, plotmon := false }

/-- The same iterative configuration with soft_avg 2. -/
def mcIterSoft2 : MC := { mcIterDouble with soft_avg := 2 }

/-- Mismatch configuration: batched settable, non-batched gettable. -/
def mcMismatch : MC := { mcIterDouble with settable_pars := [sBatched] }

/-- Reverse flag disagreement: plain settable, batched gettable. -/
def mcRevBatch : MC := { mcIterDouble with gettable_pars := [gFives] }

/-- Mismatch configuration with a live plot monitor configured. -/
def mcMismatchPm : MC := { mcIterDouble with settable_pars := [sBatched], plotmon := true }

/-- Finish-demo configuration: the settable has no finish method while
the gettable has one. -/
def mcFinishDemo : MC :=
  { settable_pars := [sPlain], setpoints := [[0]],
    gettable_pars := [gWithFinish], soft_avg := 1, plot_info := ⟨none, none, none⟩,
    nr_acquired_values := 0, soft_iterations := 0, plotmon := false }

/-- Configuration for the end-of-run reset: soft_avg 2 and a non-default
plot info before the run. -/
def mcTidy : MC :=
  { settable_pars := [sPlain], setpoints := [[0], [1], [2]],
    gettable_pars := [gDouble], soft_avg := 2, plot_info := ⟨some true, some 3, some 2⟩,
    nr_acquired_values := 7, soft_iterations := 5, plotmon := false }

/-- The dataset the tidy run returns. -/
def dsTidy : Dataset := ⟨[[0, 1, 2]], [[some 0, some 2, some 4]]⟩

/-- The instance state after the tidy run. -/
def mcTidyFinal : MC :=
  { mcTidy with soft_avg := 1, plot_info := PlotInfo.afterRun,
                nr_acquired_values := 3, soft_iterations := 0 }

theorem zipWith_swapQ (f : ℚ → ℚ → ℚ) (l m : List ℚ) :
    List.zipWith f l m = List.zipWith (fun a b => f b a) m l := by
  induction l generalizing m with
  | nil => cases m <;> simp
  | cons a l ih => cases m <;> simp [ih]

theorem batchCombineRow_eq_spec (sa it idx : Nat) (old : List (Option ℚ)) (row : List ℚ) :
    batchCombineRow sa it idx old row
      = specBatchCombine sa it (padRow idx old.length row) (old.map (fun o => o.getD 0)) := by
  simp only [batchCombineRow, specBatchCombine]
  split_ifs with hsa
  · rw [zipWith_swapQ]
    congr 1
    funext a b
    ring
  · congr 1
    funext p o
    ring

/-- C1: in batched mode each returned row is zero-padded and combined with
the stored values by summation when soft_avg is 1 and by the running
average (padded + old * prior_iterations) / (prior_iterations + 1)
otherwise, prior_iterations being acquired div setpoint-count; with
soft_avg 2, passes of ones and ones average to ones, and passes of ones
and threes average to twos. -/
theorem C1_batched_averaging :
    (∀ (sa it idx : Nat) (old : List (Option ℚ)) (row : List ℚ),
        batchCombineRow sa it idx old row
          = specBatchCombine sa it (padRow idx old.length row) (old.map (fun o => o.getD 0)))
    ∧ runYs (run mcOnesOnes [0] oracleOff) = [[some 1, some 1, some 1]]
    ∧ runYs (run mcOnesThrees [0] oracleOff) = [[some 2, some 2, some 2]] := by
  refine ⟨batchCombineRow_eq_spec, ?_, ?_⟩
  · norm_num [run, runYs, initialize_dataset, is_internally_controlled, prepareSettablesEvents,
      leadingTrue, batchLoop, batchStep, combineRowsFrom, batchCombineRow, padRow,
      updateEvents, applyRow, finishEvents, mcOnesOnes, sBatched, gOnesOnes, oracleOff]
  · norm_num [run, runYs, initialize_dataset, is_internally_controlled, prepareSettablesEvents,
      leadingTrue, batchLoop, batchStep, combineRowsFrom, batchCombineRow, padRow,
      updateEvents, applyRow, finishEvents, mcOnesThrees, mcOnesOnes, sBatched, gOnesThrees,
      oracleOff]

/-- C4: the finish loop of _finish iterates the Python expression
gettable_pars and settable_pars, i.e. only the settables, and its
try-except stops at the first settable without a finish method; so the
gettable that defines finish never receives the call, and in a run with
such a configuration no finish call appears at all, contradicting the
claim and the documented intent. -/
theorem C4_finish_only_settables :
    gWithFinish.has_finish = true
    ∧ finishEvents [gWithFinish] [sPlain] = []
    ∧ Event.finishCall 0 ∉ (run mcFinishDemo [0] oracleOff).trace
    ∧ finishEvents [gWithFinish] [sWithFinish, sPlain, sWithFinish] = [Event.finishCall 0] := by
  decide

/-- C8: at one acquired value out of three, print_progress hands the
callback the raw fraction 100 / 3, a non-integer rational (denominator
3), while only the printed message truncates it to the integer 33;
this contradicts the documented integer contract of the callback. -/
theorem C8_progress_callback_not_integer :
    (print_progress 1 3 1).callback_arg = 100 / 3
    ∧ ((print_progress 1 3 1).callback_arg).den = 3
    ∧ (print_progress 1 3 1).printed_pct = 33 := by
  have harg : (print_progress 1 3 1).callback_arg = 100 / 3 := by
    norm_num [print_progress]
  refine ⟨harg, ?_, ?_⟩
  · rw [harg]
    norm_num [Rat.den]
  · show ⌊(1 : ℚ) / ((3 : ℚ) * (1 : ℚ)) * 100⌋ = 33
    rw [Int.floor_eq_iff]
    norm_num

/-- C9: the capability validators accept an object exactly when it has
the required set (respectively get) callable together with the name and
unit attributes, and raise an AttributeError naming the missing attribute
otherwise; validation is a pure check that does not modify the object. -/
theorem C9_adapter_validation :
    ∀ o : DuckObject,
      exceptOk (is_setable o) = (o.has_set && o.has_name && o.has_unit)
      ∧ exceptOk (is_getable o) = (o.has_get && o.has_name && o.has_unit) := by
  intro o
  rcases o with ⟨s, g, n, u⟩
  cases s <;> cases g <;> cases n <;> cases u <;> decide

theorem run_mismatch_trace (mc : MC) (iv : List ℚ) (o : Nat → Bool)
    (s0 : SettablePar) (srest : List SettablePar) (g0 : GettablePar) (grest : List GettablePar)
    (hs : mc.settable_pars = s0 :: srest) (hg : mc.gettable_pars = g0 :: grest)
    (hsb : s0.batched = true) (hgb : g0.batched = false) :
    run mc iv o = { trace := [Event.initDataset, Event.persist, Event.snapshotWrite]
                      ++ (if mc.plotmon then [Event.plotmonInit, Event.plotmonUpdate] else []),
                    outcome := RunOutcome.mismatch } := by
  simp only [run, hs, hg, hsb, hgb, is_internally_controlled, Bool.not_true, Bool.not_false,
    Bool.false_and, if_false, Bool.false_eq_true, if_neg]

/-- C2: the claim fails in one direction. When the settable is not
batched while the gettable is batched, run raises no configuration error:
it completes normally in batched mode and get is called. -/
theorem C2_no_error_when_gettable_batched :
    sPlain.batched = false
    ∧ gFives.batched = true
    ∧ (run mcRevBatch [0] oracleOff).outcome.isMismatch = false
    ∧ (run mcRevBatch [0] oracleOff).outcome.isDone = true
    ∧ Event.getCall 0 ∈ (run mcRevBatch [0] oracleOff).trace := by
  decide

/-- C2 amended: only when the settables are batched while the gettable is
not does run raise the control-mismatch error, and then it does so before
any set or get call; a batched gettable with non-batched settables is
accepted and runs in batched mode. -/
theorem C2_mismatch_error_one_direction (mc : MC) (iv : List ℚ) (o : Nat → Bool)
    (s0 : SettablePar) (srest : List SettablePar) (g0 : GettablePar) (grest : List GettablePar)
    (hs : mc.settable_pars = s0 :: srest) (hg : mc.gettable_pars = g0 :: grest)
    (hsb : s0.batched = true) (hgb : g0.batched = false) :
    (run mc iv o).outcome = RunOutcome.mismatch
    ∧ (∀ i v, Event.setCall i v ∉ (run mc iv o).trace)
    ∧ (∀ j, Event.getCall j ∉ (run mc iv o).trace) := by
  have hrun := run_mismatch_trace mc iv o s0 srest g0 grest hs hg hsb hgb
  refine ⟨by rw [hrun], ?_, ?_⟩
  · intro i v
    rw [hrun]
    cases hpm : mc.plotmon <;> simp
  · intro j
    rw [hrun]
    cases hpm : mc.plotmon <;> simp

theorem C2_mismatch_error_one_direction_witness :
    (run mcMismatch [0] oracleOff).outcome = RunOutcome.mismatch
    ∧ Event.setCall 0 0 ∉ (run mcMismatch [0] oracleOff).trace
    ∧ Event.getCall 0 ∉ (run mcMismatch [0] oracleOff).trace :=
  ⟨(C2_mismatch_error_one_direction mcMismatch [0] oracleOff sBatched [] gDouble []
      rfl rfl rfl rfl).1,
   (C2_mismatch_error_one_direction mcMismatch [0] oracleOff sBatched [] gDouble []
      rfl rfl rfl rfl).2.1 0 0,
   (C2_mismatch_error_one_direction mcMismatch [0] oracleOff sBatched [] gDouble []
      rfl rfl rfl rfl).2.2 0⟩

/-- C5: the claim fails for the batched-mode mismatch error. When run
raises the control-mismatch exception, the empty dataset has already been
created and persisted to disk. -/
theorem C5_dataset_persisted_before_mismatch :
    (run mcMismatch [0] oracleOff).outcome.isMismatch = true
    ∧ Event.initDataset ∈ (run mcMismatch [0] oracleOff).trace
    ∧ Event.persist ∈ (run mcMismatch [0] oracleOff).trace := by
  decide

/-- C5 amended: the batched-mode mismatch error is raised before
acquisition starts, in the sense that no prepare, set or get call has
happened, but only after the empty dataset has been created and persisted
and the snapshot written. Missing-attribute errors are raised when
settables and gettables are registered, before run is entered. -/
theorem C5_mismatch_after_dataset_persist (mc : MC) (iv : List ℚ) (o : Nat → Bool)
    (s0 : SettablePar) (srest : List SettablePar) (g0 : GettablePar) (grest : List GettablePar)
    (hs : mc.settable_pars = s0 :: srest) (hg : mc.gettable_pars = g0 :: grest)
    (hsb : s0.batched = true) (hgb : g0.batched = false) :
    (run mc iv o).outcome = RunOutcome.mismatch
    ∧ Event.initDataset ∈ (run mc iv o).trace
    ∧ Event.persist ∈ (run mc iv o).trace
    ∧ (∀ i, Event.prepareSettableCall i ∉ (run mc iv o).trace)
    ∧ Event.prepareGettableCall ∉ (run mc iv o).trace
    ∧ (∀ i v, Event.setCall i v ∉ (run mc iv o).trace)
    ∧ (∀ j, Event.getCall j ∉ (run mc iv o).trace) := by
  have hrun := run_mismatch_trace mc iv o s0 srest g0 grest hs hg hsb hgb
  rw [hrun]
  refine ⟨rfl, by simp, by simp, ?_, ?_, ?_, ?_⟩
  · intro i
    cases hpm : mc.plotmon <;> simp
  · cases hpm : mc.plotmon <;> simp
  · intro i v
    cases hpm : mc.plotmon <;> simp
  · intro j
    cases hpm : mc.plotmon <;> simp

theorem C5_mismatch_after_dataset_persist_witness :
    (run mcMismatchPm [0] oracleOff).outcome = RunOutcome.mismatch
    ∧ Event.initDataset ∈ (run mcMismatchPm [0] oracleOff).trace
    ∧ Event.persist ∈ (run mcMismatchPm [0] oracleOff).trace
    ∧ Event.prepareGettableCall ∉ (run mcMismatchPm [0] oracleOff).trace :=
  ⟨(C5_mismatch_after_dataset_persist mcMismatchPm [0] oracleOff sBatched [] gDouble []
      rfl rfl rfl rfl).1,
   (C5_mismatch_after_dataset_persist mcMismatchPm [0] oracleOff sBatched [] gDouble []
      rfl rfl rfl rfl).2.1,
   (C5_mismatch_after_dataset_persist mcMismatchPm [0] oracleOff sBatched [] gDouble []
      rfl rfl rfl rfl).2.2.1,
   (C5_mismatch_after_dataset_persist mcMismatchPm [0] oracleOff sBatched [] gDouble []
      rfl rfl rfl rfl).2.2.2.2.1⟩

theorem doGetsFrom_single (lastSet : List ℚ) (idx j : Nat) (g0 : GettablePar)
    (ys : List (List (Option ℚ))) :
    doGetsFrom lastSet idx j [g0] ys
      = (setCell ys j idx (g0.iter_get lastSet), [Event.getCall j]) := by
  simp [doGetsFrom]

theorem iterLoop_nr (ctx : Ctx) :
    ∀ (rows : List (List ℚ)) (idx : Nat) (acc : IterAcc),
      (iterLoop ctx rows idx acc).nr = acc.nr + rows.length := by
  intro rows
  induction rows with
  | nil => intro idx acc; simp [iterLoop]
  | cons row rest ih =>
    intro idx acc
    simp only [iterLoop]
    rw [ih]
    simp only [List.length_cons]
    omega

theorem getCall_not_mem_setEvs (n : Nat) (row : List ℚ) (j : Nat) :
    Event.getCall j ∉ (List.range n).map (fun i => Event.setCall i (row.getD i 0)) := by
  simp [List.mem_map]

theorem getCall_not_mem_updateEvents (o : Nat → Bool) (k nr numSetpoints : Nat) (pm : Bool)
    (j : Nat) : Event.getCall j ∉ updateEvents o k nr numSetpoints pm := by
  unfold updateEvents
  split_ifs <;> cases pm <;> simp

theorem iterLoop_count_getCall (ctx : Ctx) (g0 : GettablePar) (hg : ctx.gps = [g0]) :
    ∀ (rows : List (List ℚ)) (idx : Nat) (acc : IterAcc),
      (iterLoop ctx rows idx acc).trace.count (Event.getCall 0)
        = acc.trace.count (Event.getCall 0) + rows.length := by
  intro rows
  induction rows with
  | nil => intro idx acc; simp [iterLoop]
  | cons row rest ih =>
    intro idx acc
    simp only [iterLoop, hg, doGetsFrom_single]
    rw [ih]
    simp only [List.count_append, List.length_cons]
    rw [List.count_eq_zero.mpr (getCall_not_mem_setEvs _ _ _),
        List.count_eq_zero.mpr (getCall_not_mem_updateEvents _ _ _ _ _ _)]
    simp [List.count_singleton]
    omega

theorem applyRow_eq_of_len : ∀ (ls row : List ℚ), ls.length = row.length → applyRow ls row = row
  | [], [], _ => rfl
  | [], _ :: _, h => by simp at h
  | _ :: _, [], h => by simp at h
  | a :: ls, b :: row, h => by
    simp only [applyRow]
    rw [applyRow_eq_of_len ls row (by simpa using h)]

theorem iterLoop_ys_single (ctx : Ctx) (g0 : GettablePar) (hg : ctx.gps = [g0]) :
    ∀ (rows : List (List ℚ)) (idx : Nat) (y : List (Option ℚ)) (ls : List ℚ)
      (nr updIdx : Nat) (tr : List Event),
      (∀ row ∈ rows, row.length = ls.length) →
      (iterLoop ctx rows idx ⟨[y], ls, nr, updIdx, tr⟩).ys
        = [yWriteSeq g0.iter_get y idx rows] := by
  intro rows
  induction rows with
  | nil => intro idx y ls nr updIdx tr _; simp [iterLoop, yWriteSeq]
  | cons row rest ih =>
    intro idx y ls nr updIdx tr hw
    have hrow : ls.length = row.length := (hw row (by simp)).symm
    have har : applyRow ls row = row := applyRow_eq_of_len ls row hrow
    have hrest : ∀ r ∈ rest, r.length = row.length := by
      intro r hr
      rw [← hrow]
      exact hw r (by simp [hr])
    simp only [iterLoop, hg, doGetsFrom_single, har, setCell, List.set, List.getD,
      List.get?_cons_zero, Option.getD_some]
    rw [ih (idx + 1) (y.set idx (some (g0.iter_get row))) row (nr + 1) (updIdx + 1) _ hrest]
    simp [yWriteSeq]

theorem set_append_len {α : Type} (pre : List α) (l : List α) (v : α) :
    (pre ++ l).set pre.length v = pre ++ l.set 0 v := by
  induction pre with
  | nil => simp
  | cons a pre ih => simp [List.set, ih]

theorem yWriteSeq_fresh (g : List ℚ → ℚ) :
    ∀ (rows : List (List ℚ)) (pre : List (Option ℚ)),
      yWriteSeq g (pre ++ List.replicate rows.length none) pre.length rows
        = pre ++ rows.map (fun r => some (g r)) := by
  intro rows
  induction rows with
  | nil => intro pre; simp [yWriteSeq]
  | cons row rest ih =>
    intro pre
    simp only [yWriteSeq, List.length_cons, List.replicate_succ, set_append_len, List.set]
    have h1 : pre ++ some (g row) :: List.replicate rest.length none
        = (pre ++ [some (g row)]) ++ List.replicate rest.length none := by
      simp
    have h2 : pre.length + 1 = (pre ++ [some (g row)]).length := by
      simp
    rw [h1, h2, ih (pre ++ [some (g row)])]
    simp

theorem map_const_none (l : List (List ℚ)) :
    l.map (fun _ => (none : Option ℚ)) = List.replicate l.length none := by
  induction l with
  | nil => rfl
  | cons a l ih => simp [List.replicate_succ, ih]

theorem run_iterative_eq (mc : MC) (iv : List ℚ) (o : Nat → Bool)
    (s0 : SettablePar) (srest : List SettablePar) (g0 : GettablePar) (grest : List GettablePar)
    (hs : mc.settable_pars = s0 :: srest) (hg : mc.gettable_pars = g0 :: grest)
    (hsb : s0.batched = false) (hgb : g0.batched = false) :
    run mc iv o =
      { trace := [Event.initDataset, Event.persist, Event.snapshotWrite]
            ++ (if mc.plotmon then [Event.plotmonInit, Event.plotmonUpdate] else [])
            ++ prepareSettablesEvents (s0 :: srest) ++ prepareGettableEvents (g0 :: grest)
            ++ (iterLoop ⟨s0 :: srest, g0 :: grest, mc.setpoints, mc.soft_avg, mc.plotmon, o⟩
                  mc.setpoints 0
                  ⟨(g0 :: grest).map (fun _ => mc.setpoints.map (fun _ => (none : Option ℚ))),
                    iv, 0, 0, []⟩).trace
            ++ [Event.persist] ++ finishEvents (g0 :: grest) (s0 :: srest),
        outcome := RunOutcome.done
          ⟨(List.range (s0 :: srest).length).map
              (fun i => mc.setpoints.map (fun row => row.getD i 0)),
            (iterLoop ⟨s0 :: srest, g0 :: grest, mc.setpoints, mc.soft_avg, mc.plotmon, o⟩
                mc.setpoints 0
                ⟨(g0 :: grest).map (fun _ => mc.setpoints.map (fun _ => (none : Option ℚ))),
                  iv, 0, 0, []⟩).ys⟩
          { mc with soft_avg := 1, plot_info := PlotInfo.afterRun,
                    nr_acquired_values :=
                      (iterLoop ⟨s0 :: srest, g0 :: grest, mc.setpoints, mc.soft_avg,
                          mc.plotmon, o⟩ mc.setpoints 0
                          ⟨(g0 :: grest).map (fun _ => mc.setpoints.map
                              (fun _ => (none : Option ℚ))), iv, 0, 0, []⟩).nr,
                    soft_iterations := 0 } } := by
  simp only [run, hs, hg, hsb, hgb, is_internally_controlled, Bool.not_false, Bool.and_self,
    if_true, initialize_dataset, List.length_cons, List.append_assoc]

/-- C7: in iterative mode each setpoint row is set on the settables, the
gettable is read and the scalar stored at that row index, so the y0 array
equals the gettable function mapped over the setpoint rows in order; in
particular setpoints 0, 1, 2 with a doubling gettable yield 0, 2, 4. -/
theorem C7_iterative_round_trip (mc : MC) (iv : List ℚ) (o : Nat → Bool)
    (s0 : SettablePar) (srest : List SettablePar) (g0 : GettablePar)
    (hs : mc.settable_pars = s0 :: srest) (hg : mc.gettable_pars = [g0])
    (hsb : s0.batched = false) (hgb : g0.batched = false)
    (hw : ∀ row ∈ mc.setpoints, row.length = iv.length) :
    runYs (run mc iv o) = [mc.setpoints.map (fun row => some (g0.iter_get row))] := by
  rw [run_iterative_eq mc iv o s0 srest g0 [] hs hg hsb hgb]
  simp only [runYs, List.map_cons, List.map_nil]
  rw [iterLoop_ys_single _ g0 rfl mc.setpoints 0 _ iv 0 0 [] hw]
  rw [map_const_none]
  have hfresh := yWriteSeq_fresh g0.iter_get mc.setpoints []
  simp only [List.nil_append, List.length_nil] at hfresh
  rw [hfresh]

theorem C7_iterative_round_trip_witness :
    runYs (run mcIterDouble [0] oracleOff) = [[some 0, some 2, some 4]] :=
  (C7_iterative_round_trip mcIterDouble [0] oracleOff sPlain [] gDouble
      rfl rfl rfl rfl (by decide)).trans (by norm_num [mcIterDouble, gDouble])

theorem getCall_not_mem_prepS (sps : List SettablePar) (j : Nat) :
    Event.getCall j ∉ prepareSettablesEvents sps := by
  simp [prepareSettablesEvents, List.mem_map]

theorem getCall_not_mem_prepG (gps : List GettablePar) (j : Nat) :
    Event.getCall j ∉ prepareGettableEvents gps := by
  cases gps with
  | nil => simp [prepareGettableEvents]
  | cons g rest =>
    simp only [prepareGettableEvents]
    split_ifs <;> simp

theorem getCall_not_mem_finishEvents (gps : List GettablePar) (sps : List SettablePar)
    (j : Nat) : Event.getCall j ∉ finishEvents gps sps := by
  simp [finishEvents, List.mem_map]

theorem iterLoop_soft_avg_irrel2 (sps : List SettablePar) (gps : List GettablePar)
    (setpoints : List (List ℚ)) (pm : Bool) (o : Nat → Bool) (k1 k2 : Nat) :
    ∀ (rows : List (List ℚ)) (idx : Nat) (acc : IterAcc),
      iterLoop ⟨sps, gps, setpoints, k1, pm, o⟩ rows idx acc
        = iterLoop ⟨sps, gps, setpoints, k2, pm, o⟩ rows idx acc := by
  intro rows
  induction rows with
  | nil => intro idx acc; rfl
  | cons row rest ih =>
    intro idx acc
    simp only [iterLoop]
    rw [ih]

/-- C3: the claim fails. In iterative mode run performs a single pass over
the setpoints no matter the soft_avg value: with soft_avg 2 over three
setpoints only three get calls happen and three values are acquired,
not six. -/
theorem C3_single_pass_despite_soft_avg :
    mcIterSoft2.soft_avg = 2
    ∧ mcIterSoft2.setpoints.length = 3
    ∧ (run mcIterSoft2 [0] oracleOff).trace.count (Event.getCall 0) = 3
    ∧ (run mcIterSoft2 [0] oracleOff).outcome.acquired = some 3 := by
  decide

/-- C3 amended: in iterative mode run performs exactly one pass over the
setpoint sequence, with one get call and one acquired value per row, and
the stored data are the direct single-pass values; soft_avg has no effect
on the iterative acquisition (it only enters the progress fraction). -/
theorem C3_iterative_ignores_soft_avg (mc : MC) (iv : List ℚ) (o : Nat → Bool)
    (s0 : SettablePar) (srest : List SettablePar) (g0 : GettablePar)
    (hs : mc.settable_pars = s0 :: srest) (hg : mc.gettable_pars = [g0])
    (hsb : s0.batched = false) (hgb : g0.batched = false) :
    (run mc iv o).trace.count (Event.getCall 0) = mc.setpoints.length
    ∧ (run mc iv o).outcome.acquired = some mc.setpoints.length
    ∧ ∀ k, runYs (run { mc with soft_avg := k } iv o) = runYs (run mc iv o) := by
  refine ⟨?_, ?_, ?_⟩
  · rw [run_iterative_eq mc iv o s0 srest g0 [] hs hg hsb hgb]
    simp only [List.count_append]
    rw [iterLoop_count_getCall _ g0 rfl]
    rw [List.count_eq_zero.mpr (getCall_not_mem_prepS (s0 :: srest) 0),
        List.count_eq_zero.mpr (getCall_not_mem_prepG (g0 :: []) 0),
        List.count_eq_zero.mpr (getCall_not_mem_finishEvents (g0 :: []) (s0 :: srest) 0)]
    cases hpm : mc.plotmon <;> simp
  · rw [run_iterative_eq mc iv o s0 srest g0 [] hs hg hsb hgb]
    simp only [RunOutcome.acquired]
    rw [iterLoop_nr]
    simp
  · intro k
    rw [run_iterative_eq { mc with soft_avg := k } iv o s0 srest g0 [] hs hg hsb hgb,
        run_iterative_eq mc iv o s0 srest g0 [] hs hg hsb hgb]
    simp only [runYs]
    rw [iterLoop_soft_avg_irrel2 (s0 :: srest) (g0 :: []) mc.setpoints mc.plotmon o
        k mc.soft_avg]

theorem C3_iterative_ignores_soft_avg_witness :
    (run mcIterSoft2 [0] oracleOff).trace.count (Event.getCall 0) = 3
    ∧ (run mcIterSoft2 [0] oracleOff).outcome.acquired = some 3
    ∧ runYs (run { mcIterSoft2 with soft_avg := 5 } [0] oracleOff)
        = runYs (run mcIterSoft2 [0] oracleOff) :=
  ⟨(C3_iterative_ignores_soft_avg mcIterSoft2 [0] oracleOff sPlain [] gDouble
      rfl rfl rfl rfl).1.trans (by decide),
   (C3_iterative_ignores_soft_avg mcIterSoft2 [0] oracleOff sPlain [] gDouble
      rfl rfl rfl rfl).2.1.trans (by decide),
   (C3_iterative_ignores_soft_avg mcIterSoft2 [0] oracleOff sPlain [] gDouble
      rfl rfl rfl rfl).2.2 5⟩

/-- C10: whenever run completes normally, the final instance state has
soft_avg reset to 1 and plot info reset to the dict holding only 2D-grid
mapped to False, while the configured settables, setpoints and gettables
carry over unchanged. -/
theorem C10_run_resets (mc : MC) (iv : List ℚ) (o : Nat → Bool) (ds : Dataset) (mcF : MC)
    (h : (run mc iv o).outcome = RunOutcome.done ds mcF) :
    mcF.soft_avg = 1 ∧ mcF.plot_info = PlotInfo.afterRun
    ∧ mcF.settable_pars = mc.settable_pars ∧ mcF.setpoints = mc.setpoints
    ∧ mcF.gettable_pars = mc.gettable_pars := by
  simp only [run] at h
  split at h
  · simp at h
  · simp at h
  · split at h
    · simp only [RunOutcome.done.injEq] at h
      rw [← h.2]
      simp
    · split at h
      · split at h
        · simp only [RunOutcome.done.injEq] at h
          rw [← h.2]
          simp
        · simp at h
      · simp at h

theorem C10_run_resets_witness :
    mcTidyFinal.soft_avg = 1 ∧ mcTidyFinal.plot_info = PlotInfo.afterRun
    ∧ mcTidyFinal.settable_pars = mcTidy.settable_pars
    ∧ mcTidyFinal.setpoints = mcTidy.setpoints
    ∧ mcTidyFinal.gettable_pars = mcTidy.gettable_pars :=
  C10_run_resets mcTidy [0] oracleOff dsTidy mcTidyFinal (by
    norm_num [run, runYs, initialize_dataset, is_internally_controlled, prepareSettablesEvents,
      prepareGettableEvents, leadingTrue, iterLoop, doGetsFrom, setCell,
      updateEvents, applyRow, finishEvents, mcTidy, mcTidyFinal, dsTidy, sPlain, gDouble,
      oracleOff, List.set, PlotInfo.afterRun, List.range_succ, List.range_zero, List.getD])

theorem get?_eq_some_getD {α : Type} : ∀ (l : List α) (i : Nat) (d : α), i < l.length →
    l.get? i = some (l.getD i d)
  | _ :: _, 0, _, _ => rfl
  | _ :: l, i+1, d, h => get?_eq_some_getD l i d (by simpa using h)
  | [], _, _, h => by simp at h

theorem tileStep_length (xn : List (List ℚ)) : ∀ (sn : List ℚ),
    (tileStep xn sn).length = xn.length * sn.length
  | [] => by simp [tileStep]
  | v :: vs => by
    simp [tileStep, tileStep_length xn vs]
    ring

theorem tileStep_get? (xn : List (List ℚ)) (hL : 0 < xn.length) :
    ∀ (sn : List ℚ) (i : Nat), i < xn.length * sn.length →
      (tileStep xn sn).get? i
        = some (xn.getD (i % xn.length) [] ++ [sn.getD (i / xn.length) 0]) := by
  intro sn
  induction sn with
  | nil => intro i hi; simp at hi
  | cons v vs ih =>
    intro i hi
    by_cases hlt : i < xn.length
    · rw [tileStep, List.get?_append (by simpa using hlt), List.get?_map,
        get?_eq_some_getD xn i [] hlt]
      simp [Nat.mod_eq_of_lt hlt, Nat.div_eq_of_lt hlt, List.getD]
    · push_neg at hlt
      have hsub : i - xn.length < xn.length * vs.length := by
        simp only [List.length_cons, Nat.mul_succ] at hi
        omega
      rw [tileStep, List.get?_append_right (by simpa using hlt)]
      simp only [List.length_map]
      rw [ih (i - xn.length) hsub]
      rw [← Nat.mod_eq_sub_mod hlt]
      have hdiv : i / xn.length = (i - xn.length) / xn.length + 1 :=
        Nat.div_eq_sub_div hL hlt
      rw [hdiv]
      simp [List.getD]

theorem getD_of_get?_some {α : Type} (l : List α) (i : Nat) (d x : α)
    (h : l.get? i = some x) : l.getD i d = x := by
  simp [List.getD, ← List.get?_eq_getElem?, h]

theorem specGridRow_length : ∀ (arrays : List (List ℚ)) (r : Nat),
    (specGridRow arrays r).length = arrays.length
  | [], _ => rfl
  | a :: rest, r => by simp [specGridRow, specGridRow_length rest]

theorem foldl_tileStep_char : ∀ (rest : List (List ℚ)) (acc : List (List ℚ)),
    0 < acc.length → (∀ a ∈ rest, a ≠ []) →
      ((rest.foldl tileStep acc).length = acc.length * (rest.map List.length).prod
       ∧ ∀ i, i < acc.length * (rest.map List.length).prod →
          (rest.foldl tileStep acc).get? i
            = some (acc.getD (i % acc.length) [] ++ specGridRow rest (i / acc.length)))
  | [], acc, hacc, _ => by
    refine ⟨by simp, ?_⟩
    intro i hi
    simp only [List.map_nil, List.prod_nil, Nat.mul_one] at hi
    simp only [List.foldl_nil, specGridRow, List.append_nil]
    rw [get?_eq_some_getD acc i [] hi, Nat.mod_eq_of_lt hi]
  | s :: rest, acc, hacc, hne => by
    have hs : s ≠ [] := hne s (by simp)
    have hslen : 0 < s.length := List.length_pos.mpr hs
    have hacc2 : 0 < (tileStep acc s).length := by
      rw [tileStep_length]
      exact Nat.mul_pos hacc hslen
    have hrest : ∀ a ∈ rest, a ≠ [] := fun a ha => hne a (by simp [ha])
    obtain ⟨ihlen, ihget⟩ := foldl_tileStep_char rest (tileStep acc s) hacc2 hrest
    constructor
    · rw [List.foldl_cons, ihlen, tileStep_length]
      simp [Nat.mul_assoc]
    · intro i hi
      have hi2 : i < (tileStep acc s).length * (rest.map List.length).prod := by
        rw [tileStep_length]
        simpa [Nat.mul_assoc] using hi
      rw [List.foldl_cons, ihget i hi2]
      have hmod : i % (tileStep acc s).length < acc.length * s.length := by
        rw [tileStep_length] at hacc2 ⊢
        exact Nat.mod_lt i hacc2
      have hstep := tileStep_get? acc hacc s (i % (tileStep acc s).length) hmod
      rw [getD_of_get?_some _ _ _ _ hstep]
      rw [tileStep_length]
      have h1 : i % (acc.length * s.length) % acc.length = i % acc.length :=
        Nat.mod_mod_of_dvd i ⟨s.length, rfl⟩
      have h2 : i % (acc.length * s.length) / acc.length = i / acc.length % s.length :=
        Nat.mod_mul_right_div_self i acc.length s.length
      have h3 : i / (acc.length * s.length) = i / acc.length / s.length :=
        (Nat.div_div_eq_div_mul i acc.length s.length).symm
      rw [h1, h2, h3]
      simp [specGridRow]

/-- C6: for non-empty coordinate arrays the grid builder returns one row
per element of the cartesian product (length is the product of the
lengths), each row holding one component per array, with the first
coordinate varying fastest: row r holds coordinate j of array a at index
r divided by the product of the earlier lengths, modulo the length of a;
for input arrays 0,1,2 and 0,1 this gives the claimed six rows with first
column 0,1,2,0,1,2 and second column 0,0,0,1,1,1. -/
theorem C6_grid (s0 : List ℚ) (rest : List (List ℚ))
    (h0 : s0 ≠ []) (hrest : ∀ a ∈ rest, a ≠ []) :
    (tile_setpoints_grid (s0 :: rest)).length = ((s0 :: rest).map List.length).prod
    ∧ (∀ r, r < ((s0 :: rest).map List.length).prod →
        (tile_setpoints_grid (s0 :: rest)).get? r = some (specGridRow (s0 :: rest) r))
    ∧ (∀ row ∈ tile_setpoints_grid (s0 :: rest), row.length = (s0 :: rest).length)
    ∧ tile_setpoints_grid [[0, 1, 2], [0, 1]]
        = [[0, 0], [1, 0], [2, 0], [0, 1], [1, 1], [2, 1]] := by
  have hacc : 0 < (s0.map (fun v => [v])).length := by
    simpa using List.length_pos.mpr h0
  obtain ⟨hlen, hget⟩ := foldl_tileStep_char rest (s0.map (fun v => [v])) hacc hrest
  have htile : tile_setpoints_grid (s0 :: rest)
      = rest.foldl tileStep (s0.map (fun v => [v])) := rfl
  have hprod : (s0.map (fun v => [v])).length * (rest.map List.length).prod
      = ((s0 :: rest).map List.length).prod := by
    simp
  have hget2 : ∀ r, r < ((s0 :: rest).map List.length).prod →
      (tile_setpoints_grid (s0 :: rest)).get? r = some (specGridRow (s0 :: rest) r) := by
    intro r hr
    rw [htile, hget r (by rw [hprod]; exact hr)]
    have hjm : r % (s0.map (fun v => [v])).length < s0.length := by
      simpa using Nat.mod_lt r hacc
    have hmap : (s0.map (fun v => [v])).get? (r % (s0.map (fun v => [v])).length)
        = some [s0.getD (r % (s0.map (fun v => [v])).length) 0] := by
      rw [List.get?_map, get?_eq_some_getD s0 _ 0 hjm]
      rfl
    rw [getD_of_get?_some _ _ _ _ hmap]
    simp [specGridRow]
  refine ⟨?_, hget2, ?_, by decide⟩
  · rw [htile, hlen, hprod]
  · intro row hmem
    obtain ⟨n, hn⟩ := List.mem_iff_get?.mp hmem
    have hnlt : n < ((s0 :: rest).map List.length).prod := by
      obtain ⟨hlt, _⟩ := List.get?_eq_some.mp hn
      rw [htile, hlen, hprod] at hlt
      exact hlt
    rw [hget2 n hnlt] at hn
    have hrow : row = specGridRow (s0 :: rest) n := by
      injection hn with h
      exact h.symm
    rw [hrow, specGridRow_length]

theorem C6_grid_witness :
    (tile_setpoints_grid [[0, 1, 2], [0, 1]]).length = ([[0, 1, 2], [0, 1]].map List.length).prod
    ∧ (tile_setpoints_grid [[0, 1, 2], [0, 1]]).get? 5
        = some (specGridRow [[0, 1, 2], [0, 1]] 5)
    ∧ tile_setpoints_grid [[0, 1, 2], [0, 1]]
        = [[0, 0], [1, 0], [2, 0], [0, 1], [1, 1], [2, 1]] :=
  ⟨(C6_grid [0, 1, 2] [[0, 1]] (by decide) (by decide)).1,
   (C6_grid [0, 1, 2] [[0, 1]] (by decide) (by decide)).2.1 5 (by decide),
   (C6_grid [0, 1, 2] [[0, 1]] (by decide) (by decide)).2.2.2⟩

end Quantify
